import Mathlib

/-!
Verification of the win-utils counter-query engine against its
natural-language specification.  The Rust sources are shallowly embedded:
UTF-16 code units become `Nat`, buffers become `List Nat`, the PDH native
API becomes an explicit environment (oracle) record, and each wrapper
function is translated clause by clause.  Effectful native calls are
tracked in an explicit call trace so that claims about which calls are
issued can be stated.
-/

namespace WinUtils

/-! ### Constants (src/winapi-perf-wrapper/src/constants.rs and winapi) -/

/-- winapi `ERROR_SUCCESS`. -/
def ERROR_SUCCESS : Nat := 0

/-- `PDH_MORE_DATA = 0x800007D2` from constants.rs. -/
def PDH_MORE_DATA : Nat := 0x800007D2

/-- `PDH_CSTATUS_NO_OBJECT = 0xC0000BB8` from constants.rs. -/
def PDH_CSTATUS_NO_OBJECT : Nat := 0xC0000BB8

/-- `PDH_CSTATUS_NO_COUNTER = 0xC0000BB9` from constants.rs. -/
def PDH_CSTATUS_NO_COUNTER : Nat := 0xC0000BB9

/-! ### PathCodec: the null-separated multi-string wire format

`null_separated_to_vec` in lib.rs pops the last two elements of the
buffer (Rust `Vec::pop` is a no-op on an empty vector, so on `List` this
is `dropLast`) and then splits the remainder on the zero code unit using
slice `split` semantics: an empty slice yields one empty segment, and a
trailing separator yields a trailing empty segment. -/

/-- Rust slice `split(|el| *el == 0)` semantics on `List Nat`. -/
def splitOnZero : List Nat → List (List Nat)
  | [] => [[]]
  | 0 :: rest => [] :: splitOnZero rest
  | x :: rest =>
    match splitOnZero rest with
    | [] => [[x]]
    | h :: t => (x :: h) :: t

/-- `null_separated_to_vec` from lib.rs: pop the last two units, then
split on the zero unit. -/
def null_separated_to_vec (buf : List Nat) : List (List Nat) :=
  splitOnZero buf.dropLast.dropLast

/-- `str_to_utf16` appends a terminating zero unit to the UTF-16
encoding of the string; the encoding itself is modelled below. -/
def encodeUtf16Char (c : Char) : List Nat :=
  if c.toNat < 0x10000 then [c.toNat]
  else
    let v := c.toNat - 0x10000
    [0xD800 + v / 0x400, 0xDC00 + v % 0x400]

/-- Rust `str::encode_utf16` on a Lean `String`. -/
def encodeUtf16 (s : String) : List Nat :=
  s.toList.flatMap encodeUtf16Char

/-- `str_to_utf16` from lib.rs: UTF-16 encode and push a trailing zero. -/
def str_to_utf16 (s : String) : List Nat :=
  encodeUtf16 s ++ [0]

/-- One step of Rust `char::decode_utf16` plus lossy replacement:
decode a leading code unit (combining a valid surrogate pair, replacing
a lone surrogate by U+FFFD). -/
def utf16LossyChars : List Nat → List Char
  | [] => []
  | u :: rest =>
    if 0xD800 ≤ u ∧ u < 0xDC00 then
      match rest with
      | v :: rest2 =>
        if h : 0xDC00 ≤ v ∧ v < 0xE000 then
          Char.ofNat (0x10000 + (u - 0xD800) * 0x400 + (v - 0xDC00)) ::
            utf16LossyChars rest2
        else
          ⟨0xFFFD, by decide⟩ :: utf16LossyChars (v :: rest2)
      | [] => [⟨0xFFFD, by decide⟩]
    else if 0xDC00 ≤ u ∧ u < 0xE000 then
      ⟨0xFFFD, by decide⟩ :: utf16LossyChars rest
    else
      Char.ofNat u :: utf16LossyChars rest

/-- Rust `String::from_utf16_lossy` on a `List Nat` of code units. -/
def fromUtf16Lossy (units : List Nat) : String :=
  ⟨utf16LossyChars units⟩

/-- The buffer formed of `N` strings, each followed by one terminator
unit, followed by one additional final terminator unit. -/
def multiStringBuffer (items : List (List Nat)) : List Nat :=
  (items.map (· ++ [0])).flatten ++ [0]

/-! ### The PDH native API as an explicit environment

Each native call the wrapper makes is modelled by an oracle field.  A
probe call returns a status and the required buffer length(s); a fill
call takes the probed length(s) and returns a status and the filled
buffer(s).  Every wrapper function also returns the list of native
calls it issued, so that claims about which calls happen can be
stated. -/

/-- A record of one native PDH call issued by the wrapper. -/
inductive PdhCall where
  | enumObjectsProbe
  | enumObjectsFill (len : Nat)
  | enumItemsProbe (obj : List Nat)
  | enumItemsFill (obj : List Nat) (clen ilen : Nat)
  | expandProbe (path : List Nat)
  | expandFill (path : List Nat) (len : Nat)
  | validatePath (path : List Nat)
  | addCounter (path : List Nat)
  deriving DecidableEq

/-- Oracle for the native PDH API. -/
structure PdhEnv where
  enumObjectsProbe : Nat × Nat
  enumObjectsFill : Nat → Nat × List Nat
  enumItemsProbe : List Nat → Nat × Nat × Nat
  enumItemsFill : List Nat → Nat → Nat → Nat × (List Nat × List Nat)
  expandProbe : List Nat → Nat × Nat
  expandFill : List Nat → Nat → Nat × List Nat
  validatePath : List Nat → Nat
  addCounter : List Nat → Nat × Nat

/-- `PDH::enumerate_objects_utf16` from lib.rs: probe with a null
buffer; only `PDH_MORE_DATA` proceeds to the fill call; the fill must
return `ERROR_SUCCESS`, which decodes via `null_separated_to_vec`. -/
def enumerate_objects_utf16 (env : PdhEnv) :
    Except Nat (List (List Nat)) × List PdhCall :=
  let probe := env.enumObjectsProbe
  if probe.1 = PDH_MORE_DATA then
    let fill := env.enumObjectsFill probe.2
    if fill.1 = ERROR_SUCCESS then
      (.ok (null_separated_to_vec fill.2),
        [.enumObjectsProbe, .enumObjectsFill probe.2])
    else
      (.error fill.1, [.enumObjectsProbe, .enumObjectsFill probe.2])
  else
    (.error probe.1, [.enumObjectsProbe])

/-- `PDH::enumerate_objects_string` from lib.rs: the utf16 variant with
each element decoded by `String::from_utf16_lossy`. -/
def enumerate_objects_string (env : PdhEnv) :
    Except Nat (List String) × List PdhCall :=
  let r := enumerate_objects_utf16 env
  (r.1.map (fun v => v.map fromUtf16Lossy), r.2)

/-- `PDH::enumerate_items_utf16` from lib.rs: probe both buffer sizes at
once; only `PDH_MORE_DATA` proceeds to the fill; a non-success fill is
fatal, otherwise both buffers decode via `null_separated_to_vec`. -/
def enumerate_items_utf16 (env : PdhEnv) (obj : List Nat) :
    Except Nat (List (List Nat) × List (List Nat)) × List PdhCall :=
  let probe := env.enumItemsProbe obj
  if probe.1 = PDH_MORE_DATA then
    let fill := env.enumItemsFill obj probe.2.1 probe.2.2
    if fill.1 ≠ ERROR_SUCCESS then
      (.error fill.1, [.enumItemsProbe obj, .enumItemsFill obj probe.2.1 probe.2.2])
    else
      (.ok (null_separated_to_vec fill.2.1, null_separated_to_vec fill.2.2),
        [.enumItemsProbe obj, .enumItemsFill obj probe.2.1 probe.2.2])
  else
    (.error probe.1, [.enumItemsProbe obj])

/-- `PDH::enumerate_items_string` from lib.rs: encode the object name,
call the utf16 variant, decode both components lossily. -/
def enumerate_items_string (env : PdhEnv) (obj : String) :
    Except Nat (List String × List String) × List PdhCall :=
  let r := enumerate_items_utf16 env (str_to_utf16 obj)
  (r.1.map (fun p => (p.1.map fromUtf16Lossy, p.2.map fromUtf16Lossy)), r.2)

/-- `PDH::expand_counter_path_utf16` from lib.rs: probe with a null
buffer; any probe status other than `ERROR_SUCCESS` is fatal; then fill,
where any status other than `ERROR_SUCCESS` is fatal and success decodes
via `null_separated_to_vec`. -/
def expand_counter_path_utf16 (env : PdhEnv) (path : List Nat) :
    Except Nat (List (List Nat)) × List PdhCall :=
  let probe := env.expandProbe path
  if probe.1 ≠ ERROR_SUCCESS then
    (.error probe.1, [.expandProbe path])
  else
    let fill := env.expandFill path probe.2
    if fill.1 ≠ ERROR_SUCCESS then
      (.error fill.1, [.expandProbe path, .expandFill path probe.2])
    else
      (.ok (null_separated_to_vec fill.2),
        [.expandProbe path, .expandFill path probe.2])

/-- `PDH::expand_counter_path_string` from lib.rs: encode the path, call
the utf16 variant, decode each expanded path lossily. -/
def expand_counter_path_string (env : PdhEnv) (path : String) :
    Except Nat (List String) × List PdhCall :=
  let r := expand_counter_path_utf16 env (str_to_utf16 path)
  (r.1.map (fun v => v.map fromUtf16Lossy), r.2)

/-- `PdhQuery::add_counter_utf16` from lib.rs: `PdhValidatePathW` first;
a non-success validation status returns immediately, otherwise
`PdhAddCounterW` is issued and its status gates the counter handle. -/
def add_counter_utf16 (env : PdhEnv) (wide_path : List Nat) :
    Except Nat Nat × List PdhCall :=
  let status := env.validatePath wide_path
  if status ≠ ERROR_SUCCESS then
    (.error status, [.validatePath wide_path])
  else
    let added := env.addCounter wide_path
    if added.1 ≠ ERROR_SUCCESS then
      (.error added.1, [.validatePath wide_path, .addCounter wide_path])
    else
      (.ok added.2, [.validatePath wide_path, .addCounter wide_path])

/-! ### enumerate_counters (lib.rs lines 217-253) -/

/-- The rendered counter-path form used by `enumerate_counters`:
`format!("{}\\{}{}\\{}", path_prefix, obj, i, c)` where `path_prefix` is
`\\machine` when a machine name is set and empty otherwise, and `i` is
`(instance)` when the instance is non-empty and empty otherwise. -/
def renderCounterPath (host : Option String) (obj inst counter : String) : String :=
  let pfx := match host with
    | some h => "\\\\" ++ h
    | none => ""
  let igrp := if inst = "" then "" else "(" ++ inst ++ ")"
  pfx ++ "\\" ++ obj ++ igrp ++ "\\" ++ counter

/-- The paths `enumerate_counters` pushes for one object: instances in
enumeration order, counters within each instance. -/
def pathsForObject (pfx : String) (obj : List Nat)
    (counters instances : List (List Nat)) : List String :=
  instances.flatMap fun i =>
    let igrp := if i = [] then "" else "(" ++ fromUtf16Lossy i ++ ")"
    counters.map fun c =>
      pfx ++ "\\" ++ fromUtf16Lossy obj ++ igrp ++ "\\" ++ fromUtf16Lossy c

/-- The per-object walk inside `PDH::enumerate_counters`: a
`PDH_CSTATUS_NO_OBJECT` failure from `enumerate_items_utf16` skips the
object and continues, any other failure aborts, and a success appends
that object's paths. -/
def enumerate_counters_go (env : PdhEnv) (pfx : String) :
    List (List Nat) → Except Nat (List String)
  | [] => .ok []
  | obj :: rest =>
    match (enumerate_items_utf16 env obj).1 with
    | .ok items =>
      (enumerate_counters_go env pfx rest).map
        (fun tail => pathsForObject pfx obj items.1 items.2 ++ tail)
    | .error s =>
      if s = PDH_CSTATUS_NO_OBJECT then enumerate_counters_go env pfx rest
      else .error s

/-- `PDH::enumerate_counters` from lib.rs. -/
def enumerate_counters (env : PdhEnv) (machine_name : Option (List Nat)) :
    Except Nat (List String) :=
  let pfx := match machine_name with
    | some m => "\\\\" ++ fromUtf16Lossy m
    | none => ""
  match (enumerate_objects_utf16 env).1 with
  | .error s => .error s
  | .ok objs => enumerate_counters_go env pfx objs

/-! ### The generic two-phase probe-then-fill shape

The spec's design note describes a generic `probeThenFill(probe, fill)`
helper.  Both enumeration-style wrapper functions are instances of this
shape, differing only in which probe status gates the fill call. -/

/-- Generic two-phase protocol: issue the probe; if its status equals
`gate`, issue the fill with the probed length and decode on success;
any other probe status, and any non-success fill status, is fatal. -/
def probeThenFill (probe : Nat × Nat) (fill : Nat → Nat × List Nat)
    (gate : Nat) (probeEv : PdhCall) (fillEv : Nat → PdhCall) :
    Except Nat (List (List Nat)) × List PdhCall :=
  if probe.1 = gate then
    let filled := fill probe.2
    if filled.1 = ERROR_SUCCESS then
      (.ok (null_separated_to_vec filled.2), [probeEv, fillEv probe.2])
    else
      (.error filled.1, [probeEv, fillEv probe.2])
  else
    (.error probe.1, [probeEv])

/-- True when the trace contains an expand fill call. -/
def hasExpandFill (tr : List PdhCall) : Bool :=
  tr.any fun c =>
    match c with
    | .expandFill _ _ => true
    | _ => false

/-- True when the trace contains an object-enumeration fill call. -/
def hasEnumObjectsFill (tr : List PdhCall) : Bool :=
  tr.any fun c =>
    match c with
    | .enumObjectsFill _ => true
    | _ => false

/-- True when the trace contains a `PdhAddCounterW` call. -/
def hasAddCounterCall (tr : List PdhCall) : Bool :=
  tr.any fun c =>
    match c with
    | .addCounter _ => true
    | _ => false

/-! ### parse_instance (win-prom-node-exporter/src/binding.rs)

`parse_instance` applies the regex `.*\((.*)\)` and returns capture
group 1, or the empty string when there is no match.  The regex engine
uses leftmost-first semantics with greedy repetition and `.` does not
match a line break, so the match lives in the first line that contains
a `(` followed by a later `)`; within that line, the greedy leading
`.*` places `\(` at the last `(` that still has a `)` after it, and the
greedy group extends to the last `)` of the line.  Equivalently: split
the line at its last `)`, then split the part before it at its last
`(`; the capture is what lies between the two. -/

/-- Split a list at the last occurrence of `ch`: returns
`some (u, v)` with the input equal to `u ++ ch :: v` and `ch ∉ v`. -/
def splitAtLast (ch : Char) : List Char → Option (List Char × List Char)
  | [] => none
  | c :: rest =>
    match splitAtLast ch rest with
    | some uv => some (c :: uv.1, uv.2)
    | none => if c = ch then some ([], rest) else none

/-- Capture group 1 of `.*\((.*)\)` on a single line, when it matches. -/
def captureOfLine (cs : List Char) : Option (List Char) :=
  match splitAtLast ')' cs with
  | none => none
  | some uv =>
    match splitAtLast '(' uv.1 with
    | none => none
    | some pq => some pq.2

/-- Split a character list into lines (separator `'\n'`). -/
def splitLines : List Char → List (List Char)
  | [] => [[]]
  | c :: rest =>
    if c = '\n' then [] :: splitLines rest
    else
      match splitLines rest with
      | [] => [[c]]
      | h :: t => (c :: h) :: t

/-- `parse_instance` from binding.rs: capture group 1 of the instance
regex, or the empty string when the regex does not match. -/
def parse_instance (path : String) : String :=
  match (splitLines path.toList).findSome? captureOfLine with
  | some cap => ⟨cap⟩
  | none => ""

/-! ### The collector/exporter loop (win-prom-node-exporter/src/main.rs)

The service control handler and the two loop bodies from
`win_service_main` / `win_service_wrapper`, translated clause by
clause.  A loop body either continues with a new state or halts; the
source loops are `loop { ... }` with no `break` or `return`, so the
translated bodies always continue. -/

/-- The service control events the handler in `win_service_main` can
receive. -/
inductive ServiceControl where
  | Interrogate
  | Stop
  | Other
  deriving DecidableEq

/-- The handler results used by `win_service_main`. -/
inductive ServiceControlHandlerResult where
  | NoError
  | NotImplemented
  deriving DecidableEq

/-- `service_event_handler` from `win_service_main`: `Interrogate` maps
to `NoError` (with a TODO about handling the stop event) and every
other control event, including `Stop`, maps to `NotImplemented`. -/
def service_event_handler : ServiceControl → ServiceControlHandlerResult
  | .Interrogate => .NoError
  | _ => .NotImplemented

/-- Outcome of one pass through a `loop` body. -/
inductive LoopOutcome (S : Type) where
  | again (s : S)
  | halt
  deriving DecidableEq

/-- One tick of the collector loop: for each stream in order, the
source runs `if let Ok(v) = stream.next() { gauge.set(v) }`; an `Err`
leaves the gauge untouched and control moves to the next stream.  The
registry is the mapping from gauge label to current value, and each
stream is paired with its `next()` outcome for this tick. -/
def collectorTick {V : Type} :
    List (String × Except Nat V) → (String → V) → (String → V)
  | [], reg => reg
  | item :: rest, reg =>
    collectorTick rest
      (match item.2 with
       | .ok v => fun l => if l = item.1 then v else reg l
       | .error _ => reg)

/-- The collector loop body from `win_service_wrapper`: poll every
stream, then sleep, then loop again; there is no stop-flag check and no
exit path. -/
def collector_loop_body {V : Type} (streams : List (String × Except Nat V))
    (reg : String → V) : LoopOutcome (String → V) :=
  .again (collectorTick streams reg)

/-- The responder loop body from `win_service_wrapper`: `server.recv()`
either yields a request (gather, encode, respond) or an error (log);
both arms loop again; there is no stop-flag check and no exit path. -/
def responder_loop_body {Req : Type} (recvResult : Except String Req) :
    LoopOutcome Unit :=
  match recvResult with
  | .ok _ => .again ()
  | .error _ => .again ()

/-! ### Concrete environments used for witnesses and counterexamples -/

/-- An environment whose path-expansion probe reports `PDH_MORE_DATA`. -/
def envMoreData : PdhEnv where
  enumObjectsProbe := (PDH_MORE_DATA, 3)
  enumObjectsFill := fun _ => (ERROR_SUCCESS, [65, 0, 0])
  enumItemsProbe := fun _ => (PDH_MORE_DATA, 3, 3)
  enumItemsFill := fun _ _ _ => (ERROR_SUCCESS, ([66, 0, 0], [67, 0, 0]))
  expandProbe := fun _ => (PDH_MORE_DATA, 3)
  expandFill := fun _ _ => (ERROR_SUCCESS, [68, 0, 0])
  validatePath := fun _ => ERROR_SUCCESS
  addCounter := fun _ => (ERROR_SUCCESS, 42)

/-- An environment where every call succeeds; in particular the
path-expansion probe reports `ERROR_SUCCESS`. -/
def envSuccess : PdhEnv where
  enumObjectsProbe := (PDH_MORE_DATA, 3)
  enumObjectsFill := fun _ => (ERROR_SUCCESS, [65, 0, 0])
  enumItemsProbe := fun _ => (PDH_MORE_DATA, 3, 3)
  enumItemsFill := fun _ _ _ => (ERROR_SUCCESS, ([66, 0, 0], [67, 0, 0]))
  expandProbe := fun _ => (ERROR_SUCCESS, 3)
  expandFill := fun _ _ => (ERROR_SUCCESS, [68, 0, 0])
  validatePath := fun _ => ERROR_SUCCESS
  addCounter := fun _ => (ERROR_SUCCESS, 42)

/-- Like `envSuccess` but item enumeration reports
`PDH_CSTATUS_NO_OBJECT` for the object `[1]`. -/
def envSkip : PdhEnv :=
  { envSuccess with
    enumItemsProbe := fun obj =>
      if obj = [1] then (PDH_CSTATUS_NO_OBJECT, 0, 0)
      else (PDH_MORE_DATA, 3, 3) }

/-- Like `envSuccess` but item enumeration fails with a status other
than `PDH_CSTATUS_NO_OBJECT` for every object. -/
def envItemsFail : PdhEnv :=
  { envSuccess with
    enumItemsProbe := fun _ => (PDH_CSTATUS_NO_COUNTER, 0, 0) }

/-- Like `envSuccess` but path validation fails. -/
def envBadPath : PdhEnv :=
  { envSuccess with validatePath := fun _ => PDH_CSTATUS_NO_COUNTER }

/-- Like `envSuccess` but attaching the counter fails. -/
def envAttachFail : PdhEnv :=
  { envSuccess with addCounter := fun _ => (PDH_CSTATUS_NO_COUNTER, 0) }

/-! ## Theorems -/

/-! ### Helper lemmas about the multi-string codec -/

theorem splitOnZero_no_zero (s : List Nat) (h : 0 ∉ s) :
    splitOnZero s = [s] := by
  induction s with
  | nil => rfl
  | cons x rest ih =>
    have hx : x ≠ 0 := fun hx0 => h (hx0 ▸ List.mem_cons_self x rest)
    have hrest : 0 ∉ rest := fun hm => h (List.mem_cons_of_mem x hm)
    match x, hx with
    | Nat.succ n, _ =>
      simp only [splitOnZero, ih hrest]

theorem splitOnZero_append (s rest : List Nat) (h : 0 ∉ s) :
    splitOnZero (s ++ 0 :: rest) = s :: splitOnZero rest := by
  induction s with
  | nil => simp [splitOnZero]
  | cons x s2 ih =>
    have hx : x ≠ 0 := fun hx0 => h (hx0 ▸ List.mem_cons_self x s2)
    have hs2 : 0 ∉ s2 := fun hm => h (List.mem_cons_of_mem x hm)
    match x, hx with
    | Nat.succ n, _ =>
      simp only [List.cons_append, splitOnZero, List.append_eq, ih hs2]

theorem dropLast_two (xs : List Nat) (a b : Nat) :
    (xs ++ [a, b]).dropLast.dropLast = xs := by
  have h1 : xs ++ [a, b] = (xs ++ [a]) ++ [b] := by simp
  rw [h1, List.dropLast_concat, List.dropLast_concat]

theorem multiStringBuffer_eq (items : List (List Nat)) (h : items ≠ []) :
    ∃ core, multiStringBuffer items = core ++ [0, 0] ∧
      ((∀ s ∈ items, (0 : Nat) ∉ s) → splitOnZero core = items) := by
  induction items with
  | nil => exact absurd rfl h
  | cons s rest ih =>
    cases rest with
    | nil =>
      refine ⟨s, ?_, ?_⟩
      · simp [multiStringBuffer]
      · intro hz
        exact splitOnZero_no_zero s (hz s (List.mem_cons_self s []))
    | cons t rest2 =>
      obtain ⟨core, hcore, hsplit⟩ := ih (by simp)
      refine ⟨s ++ 0 :: core, ?_, ?_⟩
      · have hstep : multiStringBuffer (s :: t :: rest2) =
            (s ++ [0]) ++ multiStringBuffer (t :: rest2) := by
          simp [multiStringBuffer]
        rw [hstep, hcore]
        simp
      · intro hz
        have hs : (0 : Nat) ∉ s := hz s (List.mem_cons_self s _)
        have hrest : ∀ u ∈ t :: rest2, (0 : Nat) ∉ u :=
          fun u hu => hz u (List.mem_cons_of_mem s hu)
        rw [splitOnZero_append s core hs, hsplit hrest]

/-! ### C2: decodeMultiString on N strings plus final terminator -/

/-- C2 counterexample: at `N = 0` the buffer is the single final
terminator unit, and `null_separated_to_vec` returns one empty element,
not zero elements as the claim states for every `N ≥ 0`. -/
theorem multiString_zero_counterexample :
    (null_separated_to_vec (multiStringBuffer [])).length ≠ 0 ∧
      null_separated_to_vec (multiStringBuffer []) = [[]] := by
  decide

/-- C2 (amended): for every `N ≥ 1` strings free of the terminator
unit, `null_separated_to_vec` on the buffer of the `N` strings each
followed by one terminator unit plus one final terminator unit returns
exactly those `N` elements, in order, preserving empty strings; at
`N = 0` it instead returns one empty element. -/
theorem null_separated_to_vec_roundtrip (items : List (List Nat))
    (hne : items ≠ []) (hz : ∀ s ∈ items, (0 : Nat) ∉ s) :
    null_separated_to_vec (multiStringBuffer items) = items := by
  obtain ⟨core, hcore, hsplit⟩ := multiStringBuffer_eq items hne
  rw [null_separated_to_vec, hcore, dropLast_two, hsplit hz]

/-- C2 witness: three strings, the middle one empty, decode to exactly
those three elements. -/
theorem null_separated_to_vec_roundtrip_witness :
    null_separated_to_vec (multiStringBuffer [[1], [], [2, 3]]) =
      [[1], [], [2, 3]] :=
  null_separated_to_vec_roundtrip [[1], [], [2, 3]] (by decide) (by decide)

/-! ### C3: decodeMultiString on buffers shorter than two units -/

/-- C3 counterexample: on the empty buffer and on a one-unit buffer,
`null_separated_to_vec` does not fail with any error — it is total and
returns the decoded sequence `[[]]`. -/
theorem short_buffer_counterexample :
    null_separated_to_vec [] = [[]] ∧ null_separated_to_vec [7] = [[]] := by
  decide

/-- C3 (amended): on every buffer shorter than two terminator units the
function does not signal any error: the two pops are no-ops or remove
what is present, and the split of the empty remainder yields the
single-element sequence containing one empty string. -/
theorem null_separated_to_vec_short (buf : List Nat)
    (h : buf.length ≤ 1) : null_separated_to_vec buf = [[]] := by
  match buf with
  | [] => rfl
  | [x] => rfl
  | x :: y :: rest => simp at h

/-- C3 witness: a one-unit buffer decodes to the single empty
element. -/
theorem null_separated_to_vec_short_witness :
    null_separated_to_vec [7] = [[]] :=
  null_separated_to_vec_short [7] (by decide)

/-! ### C1: the two-phase probe-then-fill protocol -/

/-- C1 counterexample: the claim says that for `expandWildcardPath` the
only probe status that proceeds to the fill call is `PDH_MORE_DATA` and
any other probe status is fatal.  In the code it is the opposite: a
`PDH_MORE_DATA` probe status is fatal and no fill call is issued, while
an `ERROR_SUCCESS` probe status proceeds to the fill call. -/
theorem expand_probe_status_counterexample :
    (expand_counter_path_utf16 envMoreData [1]).1 = .error PDH_MORE_DATA ∧
    hasExpandFill (expand_counter_path_utf16 envMoreData [1]).2 = false ∧
    (expand_counter_path_utf16 envSuccess [1]).1 = .ok [[68]] ∧
    hasExpandFill (expand_counter_path_utf16 envSuccess [1]).2 = true :=
  ⟨rfl, rfl, rfl, rfl⟩

/-- C1 (amended): both `enumerate_objects_utf16` and
`expand_counter_path_utf16` follow the same two-phase probe-then-fill
shape — probe with a null buffer, a single gating probe status, a fill
call whose non-success status is fatal and whose success decodes via
`null_separated_to_vec` — but the gating probe status differs: object
enumeration proceeds to the fill only on `PDH_MORE_DATA`, while path
expansion proceeds to the fill only on `ERROR_SUCCESS`, and these two
statuses are distinct. -/
theorem two_phase_protocol (env : PdhEnv) (path : List Nat) :
    enumerate_objects_utf16 env =
      probeThenFill env.enumObjectsProbe env.enumObjectsFill PDH_MORE_DATA
        PdhCall.enumObjectsProbe PdhCall.enumObjectsFill ∧
    expand_counter_path_utf16 env path =
      probeThenFill (env.expandProbe path) (env.expandFill path) ERROR_SUCCESS
        (PdhCall.expandProbe path) (PdhCall.expandFill path) ∧
    PDH_MORE_DATA ≠ ERROR_SUCCESS := by
  refine ⟨rfl, ?_, by decide⟩
  by_cases h : (env.expandProbe path).1 = ERROR_SUCCESS <;>
    simp [expand_counter_path_utf16, probeThenFill, h]

/-! ### C10: string-typed operations refine the utf16-typed ones -/

theorem except_map_error_iff {α β : Type} (e : Except Nat α) (f : α → β)
    (s : Nat) : e.map f = .error s ↔ e = .error s := by
  cases e <;> simp [Except.map]

/-- C10: each string-typed enumeration operation equals its utf16-typed
counterpart followed by lossy UTF-16 decoding of each element, with
identical error behaviour. -/
theorem string_utf16_lossy_refinement (env : PdhEnv) (p obj : String) :
    (∀ l, (expand_counter_path_utf16 env (str_to_utf16 p)).1 = .ok l →
      (expand_counter_path_string env p).1 = .ok (l.map fromUtf16Lossy)) ∧
    (∀ s, (expand_counter_path_string env p).1 = .error s ↔
      (expand_counter_path_utf16 env (str_to_utf16 p)).1 = .error s) ∧
    (∀ l, (enumerate_objects_utf16 env).1 = .ok l →
      (enumerate_objects_string env).1 = .ok (l.map fromUtf16Lossy)) ∧
    (∀ s, (enumerate_objects_string env).1 = .error s ↔
      (enumerate_objects_utf16 env).1 = .error s) ∧
    (∀ pr, (enumerate_items_utf16 env (str_to_utf16 obj)).1 = .ok pr →
      (enumerate_items_string env obj).1 =
        .ok (pr.1.map fromUtf16Lossy, pr.2.map fromUtf16Lossy)) ∧
    (∀ s, (enumerate_items_string env obj).1 = .error s ↔
      (enumerate_items_utf16 env (str_to_utf16 obj)).1 = .error s) := by
  refine ⟨?_, ?_, ?_, ?_, ?_, ?_⟩
  · intro l hl
    simp [expand_counter_path_string, hl, Except.map]
  · intro s
    exact except_map_error_iff (expand_counter_path_utf16 env (str_to_utf16 p)).1 _ s
  · intro l hl
    simp [enumerate_objects_string, hl, Except.map]
  · intro s
    exact except_map_error_iff (enumerate_objects_utf16 env).1 _ s
  · intro pr hpr
    simp [enumerate_items_string, hpr, Except.map]
  · intro s
    exact except_map_error_iff (enumerate_items_utf16 env (str_to_utf16 obj)).1 _ s

/-- C10 witness: for a concrete environment the string variant returns
the lossily decoded expansion, and a probe failure surfaces as the same
error status in both variants. -/
theorem string_utf16_lossy_refinement_witness :
    (expand_counter_path_string envSuccess "p").1 =
      .ok [fromUtf16Lossy [68]] ∧
    ((expand_counter_path_string envMoreData "p").1 = .error PDH_MORE_DATA ↔
      (expand_counter_path_utf16 envMoreData (str_to_utf16 "p")).1 =
        .error PDH_MORE_DATA) :=
  ⟨by
    have h := (string_utf16_lossy_refinement envSuccess "p" "o").1 [[68]] rfl
    simpa using h,
   (string_utf16_lossy_refinement envMoreData "p" "o").2.1 PDH_MORE_DATA⟩

/-! ### C4: enumerate_counters skips objects reported as NO_OBJECT -/

/-- C4: during the catalog walk, an `enumerate_items_utf16` failure
with `PDH_CSTATUS_NO_OBJECT` for an object skips that object (its
entries are omitted) and continues with the remaining objects; any
other failure status aborts the whole call with that status; a success
contributes that object's paths ahead of the remainder. -/
theorem enumerate_counters_no_object_handling (env : PdhEnv) (pfx : String)
    (obj : List Nat) (rest : List (List Nat)) :
    ((enumerate_items_utf16 env obj).1 = .error PDH_CSTATUS_NO_OBJECT →
      enumerate_counters_go env pfx (obj :: rest) =
        enumerate_counters_go env pfx rest) ∧
    (∀ s, s ≠ PDH_CSTATUS_NO_OBJECT →
      (enumerate_items_utf16 env obj).1 = .error s →
      enumerate_counters_go env pfx (obj :: rest) = .error s) ∧
    (∀ items, (enumerate_items_utf16 env obj).1 = .ok items →
      enumerate_counters_go env pfx (obj :: rest) =
        (enumerate_counters_go env pfx rest).map
          (fun tail => pathsForObject pfx obj items.1 items.2 ++ tail)) := by
  refine ⟨?_, ?_, ?_⟩
  · intro h
    simp [enumerate_counters_go, h]
  · intro s hs h
    simp [enumerate_counters_go, h, hs]
  · intro items h
    simp [enumerate_counters_go, h]

/-- C4 witness: in a concrete environment where the object `[1]` is
reported as `PDH_CSTATUS_NO_OBJECT`, the walk over `[[1], [2]]` equals
the walk over `[[2]]`; in an environment where item enumeration fails
with a different status, the walk aborts with that status. -/
theorem enumerate_counters_no_object_witness :
    enumerate_counters_go envSkip "" [[1], [2]] =
      enumerate_counters_go envSkip "" [[2]] ∧
    enumerate_counters_go envItemsFail "" [[1], [2]] =
      .error PDH_CSTATUS_NO_COUNTER :=
  ⟨(enumerate_counters_no_object_handling envSkip "" [1] [[2]]).1 rfl,
   (enumerate_counters_no_object_handling envItemsFail "" [1] [[2]]).2.1
     PDH_CSTATUS_NO_COUNTER (by decide) rfl⟩

/-! ### C5: addCounter validates before attaching -/

/-- C5: `add_counter_utf16` issues the validation call first; a
non-success validation status is returned as the error with no attach
call ever issued; on successful validation the attach call is issued,
a non-success attach status is returned as the error with no counter
produced, and only a successful attach yields the counter handle. -/
theorem add_counter_validates_first (env : PdhEnv) (path : List Nat) :
    (env.validatePath path ≠ ERROR_SUCCESS →
      (add_counter_utf16 env path).1 = .error (env.validatePath path) ∧
      hasAddCounterCall (add_counter_utf16 env path).2 = false) ∧
    (env.validatePath path = ERROR_SUCCESS →
      hasAddCounterCall (add_counter_utf16 env path).2 = true ∧
      ((env.addCounter path).1 ≠ ERROR_SUCCESS →
        (add_counter_utf16 env path).1 = .error (env.addCounter path).1) ∧
      ((env.addCounter path).1 = ERROR_SUCCESS →
        (add_counter_utf16 env path).1 = .ok (env.addCounter path).2)) := by
  constructor
  · intro h
    simp [add_counter_utf16, h, hasAddCounterCall]
  · intro h
    by_cases h2 : (env.addCounter path).1 = ERROR_SUCCESS <;>
      simp [add_counter_utf16, h, h2, hasAddCounterCall]

/-- C5 witness: with a failing validation the attach call is never
issued and the validation status is the error; with passing validation
and a failing attach, the attach status is the error. -/
theorem add_counter_validates_first_witness :
    (add_counter_utf16 envBadPath [1]).1 = .error PDH_CSTATUS_NO_COUNTER ∧
    hasAddCounterCall (add_counter_utf16 envBadPath [1]).2 = false ∧
    (add_counter_utf16 envAttachFail [1]).1 = .error PDH_CSTATUS_NO_COUNTER :=
  ⟨((add_counter_validates_first envBadPath [1]).1 (by decide)).1,
   ((add_counter_validates_first envBadPath [1]).1 (by decide)).2,
   ((add_counter_validates_first envAttachFail [1]).2 rfl).2.1 (by decide)⟩

/-! ### C6: per-tick frame effect of the collector loop -/

theorem collectorTick_not_mem {V : Type}
    (streams : List (String × Except Nat V)) (reg : String → V)
    (l : String) (h : l ∉ streams.map Prod.fst) :
    collectorTick streams reg l = reg l := by
  induction streams generalizing reg with
  | nil => rfl
  | cons s rest ih =>
    simp only [List.map_cons, List.mem_cons, not_or] at h
    obtain ⟨h1, h2⟩ := h
    rcases s with ⟨sl, res⟩
    cases res with
    | ok v =>
      rw [show collectorTick ((sl, Except.ok v) :: rest) reg =
          collectorTick rest (fun x => if x = sl then v else reg x) from rfl]
      rw [ih _ h2]
      simp [h1]
    | error e =>
      exact ih _ h2

/-- C6: on a tick, every stream whose `next()` succeeded has its
registry entry set to the returned value, and every stream whose
`next()` failed has its registry entry left unchanged (the tick itself
is a total function — no stream error aborts it). -/
theorem collector_tick_frame {V : Type}
    (streams : List (String × Except Nat V)) (reg : String → V)
    (l : String) (v : V) (e : Nat)
    (hnd : (streams.map Prod.fst).Nodup) :
    ((l, Except.ok v) ∈ streams → collectorTick streams reg l = v) ∧
    ((l, Except.error e) ∈ streams → collectorTick streams reg l = reg l) := by
  induction streams generalizing reg with
  | nil =>
    exact ⟨fun h => absurd h (List.not_mem_nil _),
           fun h => absurd h (List.not_mem_nil _)⟩
  | cons s rest ih =>
    simp only [List.map_cons, List.nodup_cons] at hnd
    obtain ⟨hs, hnd2⟩ := hnd
    constructor
    · intro hmem
      rcases List.mem_cons.mp hmem with heq | hmem2
      · have hls : l ∉ rest.map Prod.fst := by
          rw [← heq] at hs
          exact hs
        rw [← heq]
        rw [show collectorTick ((l, Except.ok v) :: rest) reg =
            collectorTick rest (fun x => if x = l then v else reg x) from rfl]
        rw [collectorTick_not_mem rest _ l hls]
        simp
      · rcases s with ⟨sl, sres⟩
        cases sres with
        | ok w =>
          rw [show collectorTick ((sl, Except.ok w) :: rest) reg =
              collectorTick rest (fun x => if x = sl then w else reg x) from rfl]
          exact (ih _ hnd2).1 hmem2
        | error e2 =>
          exact (ih reg hnd2).1 hmem2
    · intro hmem
      rcases List.mem_cons.mp hmem with heq | hmem2
      · have hls : l ∉ rest.map Prod.fst := by
          rw [← heq] at hs
          exact hs
        rw [← heq]
        rw [show collectorTick ((l, Except.error e) :: rest) reg =
            collectorTick rest reg from rfl]
        exact collectorTick_not_mem rest reg l hls
      · have hl : l ∈ rest.map Prod.fst :=
          List.mem_map.mpr ⟨(l, Except.error e), hmem2, rfl⟩
        have hlne : l ≠ s.1 := fun he => hs (he ▸ hl)
        rcases s with ⟨sl, sres⟩
        cases sres with
        | ok w =>
          rw [show collectorTick ((sl, Except.ok w) :: rest) reg =
              collectorTick rest (fun x => if x = sl then w else reg x) from rfl]
          rw [(ih _ hnd2).2 hmem2]
          simp [hlne]
        | error e2 =>
          exact (ih reg hnd2).2 hmem2

/-- C6 witness: with one failing and one succeeding stream, the failing
stream's entry keeps its prior value and the succeeding stream's entry
is updated. -/
theorem collector_tick_frame_witness :
    collectorTick [("a", Except.ok (5 : Int)), ("b", Except.error 7)]
      (fun _ => 0) "b" = 0 ∧
    collectorTick [("a", Except.ok (5 : Int)), ("b", Except.error 7)]
      (fun _ => 0) "a" = 5 :=
  ⟨(collector_tick_frame [("a", Except.ok (5 : Int)), ("b", Except.error 7)]
      (fun _ => 0) "b" 5 7 (by simp)).2 (by simp),
   (collector_tick_frame [("a", Except.ok (5 : Int)), ("b", Except.error 7)]
      (fun _ => 0) "a" 5 7 (by simp)).1 (by simp)⟩

/-! ### C7: the stop flag is never observed by either task -/

/-- C7 (code bug evidence): the service control handler maps the `Stop`
control event to `NotImplemented` — no stop flag exists, let alone one
that is set — and neither the collector loop body nor the responder
loop body has any exit path: both always continue. -/
theorem stop_flag_never_observed :
    service_event_handler ServiceControl.Stop =
      ServiceControlHandlerResult.NotImplemented ∧
    (∀ (V : Type) (streams : List (String × Except Nat V))
      (reg : String → V),
      collector_loop_body streams reg ≠ LoopOutcome.halt) ∧
    (∀ (Req : Type) (r : Except String Req),
      responder_loop_body r ≠ LoopOutcome.halt) := by
  refine ⟨rfl, ?_, ?_⟩
  · intro V streams reg
    simp [collector_loop_body]
  · intro Req r
    cases r <;> simp [responder_loop_body]

/-! ### C8: the rendered counter-path form -/

/-- C8: with no host and empty instance the rendered path has no host
prefix and no parenthesis group; with a host and a non-empty instance
the host renders as a leading double backslash segment and the instance
in parentheses. -/
theorem renderCounterPath_examples :
    renderCounterPath none "Memory" "" "Available Bytes" =
      "\\Memory\\Available Bytes" ∧
    renderCounterPath (some "H") "Memory" "0" "Available Bytes" =
      "\\\\H\\Memory(0)\\Available Bytes" := by
  constructor <;> rfl

/-! ### C9: parse_instance extracts the last parenthesized group -/

theorem splitAtLast_not_mem (ch : Char) (cs : List Char) (h : ch ∉ cs) :
    splitAtLast ch cs = none := by
  induction cs with
  | nil => rfl
  | cons c rest ih =>
    have h1 : ¬(c = ch) := fun he => h (he ▸ List.mem_cons_self c rest)
    have h2 : ch ∉ rest := fun hm => h (List.mem_cons_of_mem c hm)
    simp [splitAtLast, ih h2, h1]

theorem splitAtLast_append (ch : Char) (u v : List Char) (h : ch ∉ v) :
    splitAtLast ch (u ++ ch :: v) = some (u, v) := by
  induction u with
  | nil => simp [splitAtLast, splitAtLast_not_mem ch v h]
  | cons c u2 ih => simp [splitAtLast, ih]

theorem splitAtLast_sound (ch : Char) (cs : List Char)
    (uv : List Char × List Char) (h : splitAtLast ch cs = some uv) :
    cs = uv.1 ++ ch :: uv.2 := by
  induction cs generalizing uv with
  | nil => cases h
  | cons c rest ih =>
    simp only [splitAtLast] at h
    rcases hr : splitAtLast ch rest with _ | uv2
    · rw [hr] at h
      by_cases hc : c = ch
      · simp only [hc, if_pos rfl] at h
        cases h
        simp [hc]
      · simp [hc] at h
    · rw [hr] at h
      cases h
      have := ih uv2 hr
      simp [this]

theorem splitLines_no_newline (cs : List Char) (h : '\n' ∉ cs) :
    splitLines cs = [cs] := by
  induction cs with
  | nil => rfl
  | cons c rest ih =>
    have h1 : ¬(c = '\n') := fun he => h (he ▸ List.mem_cons_self c rest)
    have h2 : '\n' ∉ rest := fun hm => h (List.mem_cons_of_mem c hm)
    simp [splitLines, ih h2, h1]

/-- C9: on a newline-free path that decomposes as
`a ++ "(" ++ b ++ ")" ++ c` with `b` free of `(` and `c` free of `)` —
so `(b)` is the last parenthesized group even when `a` contains earlier
groups — `parse_instance` returns exactly `b`; and on a newline-free
path containing no parenthesized group at all it returns the empty
string. -/
theorem parse_instance_last_group (a b c s : List Char) :
    ('(' ∉ b → ')' ∉ c →
      '\n' ∉ (a ++ '(' :: (b ++ ')' :: c)) →
      parse_instance ⟨a ++ '(' :: (b ++ ')' :: c)⟩ = ⟨b⟩) ∧
    ('\n' ∉ s → (∀ u v w, s ≠ u ++ '(' :: (v ++ ')' :: w)) →
      parse_instance ⟨s⟩ = "") := by
  constructor
  · intro hb hc hnl
    unfold parse_instance
    rw [show (String.mk (a ++ '(' :: (b ++ ')' :: c))).toList =
        a ++ '(' :: (b ++ ')' :: c) from rfl]
    rw [splitLines_no_newline _ hnl]
    have hcap : captureOfLine (a ++ '(' :: (b ++ ')' :: c)) = some b := by
      unfold captureOfLine
      have h1 : splitAtLast ')' (a ++ '(' :: (b ++ ')' :: c)) =
          some (a ++ '(' :: b, c) := by
        have h0 := splitAtLast_append ')' (a ++ '(' :: b) c hc
        simpa using h0
      simp [h1, splitAtLast_append '(' a b hb]
    simp [List.findSome?, hcap]
  · intro hnl hno
    unfold parse_instance
    rw [show (String.mk s).toList = s from rfl]
    rw [splitLines_no_newline _ hnl]
    have hcap : captureOfLine s = none := by
      unfold captureOfLine
      rcases h1 : splitAtLast ')' s with _ | uv
      · rfl
      · rcases h2 : splitAtLast '(' uv.1 with _ | pq
        · simp [h2]
        · exfalso
          have hs1 := splitAtLast_sound ')' s uv h1
          have hs2 := splitAtLast_sound '(' uv.1 pq h2
          apply hno pq.1 pq.2 uv.2
          rw [hs1, hs2]
          simp
    simp [List.findSome?, hcap]

/-- C9 witness: the path `\X(first)\Y(0)` has two parenthesized groups
and `parse_instance` returns the content of the last one, `0`; a path
with no group yields the empty string. -/
theorem parse_instance_last_group_witness :
    parse_instance ⟨"\\X(first)\\Y".toList ++ '(' :: (['0'] ++ ')' :: [])⟩ =
      ⟨['0']⟩ ∧
    parse_instance ⟨"\\Memory\\Available Bytes".toList⟩ = "" :=
  ⟨(parse_instance_last_group ("\\X(first)\\Y".toList) ['0'] [] []).1
      (by decide) (by decide) (by decide),
   (parse_instance_last_group [] [] [] ("\\Memory\\Available Bytes".toList)).2
      (by decide)
      (by
        intro u v w h
        have hpar : '(' ∈ "\\Memory\\Available Bytes".toList := by
          rw [h]
          simp
        exact absurd hpar (by decide))⟩

end WinUtils
